import Mathlib

/-!
Verification development for the ccx2paraview FRD-to-VTK converter
(src/ccx2paraview/common.py). Python floats are modelled exactly: a finite
value is a scaled decimal m * 10 ^ e (the only float values arising in the
claims are values of decimal literals, which this form represents exactly),
plus NaN and the two infinities. Python dicts are modelled as
insertion-ordered association lists. Python exceptions are modelled with
Except.
-/

/-- A scaled decimal m * 10 ^ e. Every value a float token of the FRD
format denotes has this form. -/
structure Dec where
  m : ℤ
  e : ℤ
deriving DecidableEq

/-- The rational value a scaled decimal denotes. -/
def Dec.toRat (d : Dec) : ℚ := (d.m : ℚ) * (10 : ℚ) ^ d.e

/-- Model of a Python float value: a finite decimal, NaN, or a signed
infinity. The claims under study depend only on which decimal value a
token denotes, never on binary rounding, so finite values are kept exact. -/
inductive PyFloat where
  | finite : Dec → PyFloat
  | nan : PyFloat
  | posInf : PyFloat
  | negInf : PyFloat
deriving DecidableEq

/-- The float value 0.0 (the literal used to pre-seed result vectors and to
replace NaN/Inf in the VTK conversion). -/
def pyZero : PyFloat := PyFloat.finite ⟨0, 0⟩

/-- math.isinf on the PyFloat model. -/
def isInfB : PyFloat → Bool
  | PyFloat.posInf => true
  | PyFloat.negInf => true
  | _ => false

/-- math.isnan on the PyFloat model. -/
def isNaNB : PyFloat → Bool
  | PyFloat.nan => true
  | _ => false

/-- Negation of a Python float (sign applied by a leading minus). -/
def pyNeg : PyFloat → PyFloat
  | PyFloat.finite d => PyFloat.finite ⟨-d.m, d.e⟩
  | PyFloat.nan => PyFloat.nan
  | PyFloat.posInf => PyFloat.negInf
  | PyFloat.negInf => PyFloat.posInf

/-- Digits of a decimal literal read as a natural number. -/
def digitsToNat (cs : List Char) : ℕ :=
  cs.foldl (fun a c => 10 * a + (c.toNat - 48)) 0

/-- Exponent part of a float literal, after the `e` or `E` marker:
an optional sign followed by a nonempty digit run, consuming the rest. -/
def parseExp (cs : List Char) : Option ℤ :=
  match cs with
  | '+' :: rest =>
    if rest ≠ [] ∧ rest.all Char.isDigit then some (digitsToNat rest : ℤ) else none
  | '-' :: rest =>
    if rest ≠ [] ∧ rest.all Char.isDigit then some (-(digitsToNat rest : ℤ)) else none
  | rest =>
    if rest ≠ [] ∧ rest.all Char.isDigit then some (digitsToNat rest : ℤ) else none

/-- Numeric body of a Python float literal without sign:
`digits [. digits] [exp]` or `. digits [exp]` (underscore digit grouping,
which never occurs in FRD tokens, is not modelled). -/
def parseNumericBody (cs : List Char) : Option Dec :=
  let ip := cs.takeWhile Char.isDigit
  let rest := cs.drop ip.length
  match rest with
  | '.' :: rest2 =>
    let fp := rest2.takeWhile Char.isDigit
    let rest3 := rest2.drop fp.length
    if ip = [] ∧ fp = [] then none
    else
      let m : ℤ := (digitsToNat ip * 10 ^ fp.length + digitsToNat fp : ℕ)
      match rest3 with
      | [] => some ⟨m, -(fp.length : ℤ)⟩
      | 'e' :: r => (parseExp r).map (fun ex => ⟨m, ex - (fp.length : ℤ)⟩)
      | 'E' :: r => (parseExp r).map (fun ex => ⟨m, ex - (fp.length : ℤ)⟩)
      | _ => none
  | [] => if ip = [] then none else some ⟨(digitsToNat ip : ℤ), 0⟩
  | 'e' :: r =>
    if ip = [] then none
    else (parseExp r).map (fun ex => ⟨(digitsToNat ip : ℤ), ex⟩)
  | 'E' :: r =>
    if ip = [] then none
    else (parseExp r).map (fun ex => ⟨(digitsToNat ip : ℤ), ex⟩)
  | _ => none

/-- Strip leading and trailing whitespace, as float() does. -/
def stripChars (cs : List Char) : List Char :=
  ((cs.dropWhile Char.isWhitespace).reverse.dropWhile Char.isWhitespace).reverse

/-- Unsigned part of float(): the case-insensitive words inf, infinity and
nan, or a numeric literal. -/
def parseUnsigned (cs : List Char) : Option PyFloat :=
  let l := cs.map Char.toLower
  if l = "inf".toList ∨ l = "infinity".toList then some PyFloat.posInf
  else if l = "nan".toList then some PyFloat.nan
  else (parseNumericBody cs).map PyFloat.finite

/-- Model of Python float(str): strip whitespace, optional sign, then the
unsigned body. Returns none where float() raises ValueError. -/
def pyFloatOfChars (cs : List Char) : Option PyFloat :=
  match stripChars cs with
  | '+' :: rest => parseUnsigned rest
  | '-' :: rest => (parseUnsigned rest).map pyNeg
  | rest => parseUnsigned rest

/-- Position test for the regex `(.+).([+-])(\d\x7b3\x7d)` used by the
wrong-format repair (common.py line 566): a match whose first group ends
just before position `j` needs a non-newline at `j` (the stray `.`), a sign
at `j+1` and three digits at `j+2 .. j+4`, with at least one group-1
character before `j`. -/
def fixCond (s : List Char) (j : ℕ) : Bool :=
  decide (1 ≤ j) && decide (j + 5 ≤ s.length) &&
  (s.getD j ' ' != '\n') &&
  (s.getD (j + 1) ' ' == '+' || s.getD (j + 1) ' ' == '-') &&
  (s.getD (j + 2) ' ').isDigit && (s.getD (j + 3) ' ').isDigit &&
  (s.getD (j + 4) ' ').isDigit

/-- Greedy choice of the group-1 end for the leftmost match: regex
backtracking shrinks the greedy `(.+)` from the longest candidate, so the
largest `j` satisfying `fixCond` is taken. On newline-free input (every
token comes from a stripped line) a match starting later than position 0
exists only when one starting at 0 does, so the leftmost match always
starts at 0 when any `j` qualifies. -/
def greedyJ (s : List Char) : Option ℕ :=
  (List.range s.length).reverse.find? (fun j => fixCond s j)

/-- Model of `re.sub(r'(.+).([+-])(\d\x7b3\x7d)', r'\1e\2\3', s)` on
newline-free input: each match `(group1)(any char)(sign)(3 digits)` is
replaced by `group1 ++ e ++ sign ++ digits` — the character matched by the
stray `.` is dropped — and scanning continues after the match. The fuel is
the string length; each match consumes at least 6 characters. -/
def reSubFixAux : ℕ → List Char → List Char
  | 0, s => s
  | fuel + 1, s =>
    match greedyJ s with
    | none => s
    | some j =>
      s.take j ++
        ['e', s.getD (j + 1) ' ', s.getD (j + 2) ' ', s.getD (j + 3) ' ', s.getD (j + 4) ' '] ++
        reSubFixAux fuel (s.drop (j + 5))

/-- re.sub of the repair pattern, with fuel instantiated. -/
def reSubFix (s : List Char) : List Char := reSubFixAux s.length s

/-- Substring test modelling the Python `in` operator on strings. -/
def containsTok (pat s : List Char) : Bool :=
  (List.range (s.length + 1)).any (fun i => pat.isPrefixOf (s.drop i))

/-- View of an Except value as a sum, used to decide equality. -/
def exceptToSum {ε α : Type _} : Except ε α → ε ⊕ α
  | Except.error e => Sum.inl e
  | Except.ok a => Sum.inr a

instance {ε α : Type _} [DecidableEq ε] [DecidableEq α] : DecidableEq (Except ε α) :=
  fun x y =>
    decidable_of_iff (exceptToSum x = exceptToSum y)
      (by cases x <;> cases y <;> simp [exceptToSum])

/-- Model of the per-token try/except in read_nodal_results
(common.py lines 558-570): float(m) is tried; on success the NaN-Inf
counter is incremented when the token contains the substring NaN or Inf
(case-sensitively); on ValueError the token is rewritten by the repair
regex, reparsed, and the wrong-format counter is incremented; a second
parse failure raises ValueError and aborts the block. Returns the value
and the (NaNInf, WrongFormat) counter increments. -/
def parse_field (m : List Char) : Except String (PyFloat × ℕ × ℕ) :=
  match pyFloatOfChars m with
  | some v =>
    Except.ok
      (v, (if containsTok "NaN".toList m || containsTok "Inf".toList m then 1 else 0), 0)
  | none =>
    match pyFloatOfChars (reSubFix m) with
    | some v => Except.ok (v, 0, 1)
    | none => Except.error "ValueError: could not convert string to float"

example : reSubFix "1.234+100".toList = "1.23e+100".toList := by decide
example : reSubFix "-1.34561-102".toList = "-1.3456e-102".toList := by decide
example : parse_field "1.234+100".toList = Except.ok (PyFloat.finite ⟨123, 98⟩, 0, 1) := by decide
example : parse_field " 1.00000E+00".toList = Except.ok (PyFloat.finite ⟨100000, -5⟩, 0, 0) := by
  decide
example : parse_field "         NaN".toList = Except.ok (PyFloat.nan, 1, 0) := by decide
example : parse_field "         nan".toList = Except.ok (PyFloat.nan, 0, 0) := by decide

example : pyFloatOfChars " 1.00000E+00".toList = some (PyFloat.finite ⟨100000, -5⟩) := by decide
example : pyFloatOfChars "1.234+100".toList = none := by decide
example : pyFloatOfChars "-2.5e-2".toList = some (PyFloat.finite ⟨-25, -3⟩) := by decide
example : pyFloatOfChars "     NaN    ".toList = some PyFloat.nan := by decide
example : pyFloatOfChars "-Infinity".toList = some PyFloat.negInf := by decide
example : Dec.toRat ⟨100000, -5⟩ = 1 := by norm_num [Dec.toRat]

/-! ## Python dict model (insertion-ordered association list) -/

/-- A Python dict with natural-number keys: an association list in
insertion order, keys unique by construction of the operations. -/
abbrev PyDict (α : Type _) := List (ℕ × α)

/-- d[k] = v: updates the value in place when the key is present (keeping
its position), otherwise appends the new pair at the end — exactly the
Python dict assignment semantics. -/
def dictSet {α : Type _} : PyDict α → ℕ → α → PyDict α
  | [], k, v => [(k, v)]
  | (k0, v0) :: d, k, v =>
    if k0 = k then (k, v) :: d else (k0, v0) :: dictSet d k v

/-- d.get(k): first binding of the key, if any. -/
def dictGet {α : Type _} : PyDict α → ℕ → Option α
  | [], _ => none
  | (k0, v0) :: d, k => if k0 = k then some v0 else dictGet d k

/-- d.keys() in insertion order. -/
def dictKeys {α : Type _} (d : PyDict α) : List ℕ := d.map Prod.fst

theorem dictGet_dictSet_self {α : Type _} (d : PyDict α) (k : ℕ) (v : α) :
    dictGet (dictSet d k v) k = some v := by
  induction d with
  | nil => simp [dictSet, dictGet]
  | cons p d ih =>
    obtain ⟨k0, v0⟩ := p
    by_cases h : k0 = k <;> simp [dictSet, dictGet, h, ih]

theorem dictGet_dictSet_ne {α : Type _} (d : PyDict α) (k k' : ℕ) (v : α)
    (h : k' ≠ k) : dictGet (dictSet d k v) k' = dictGet d k' := by
  induction d with
  | nil => simp [dictSet, dictGet, Ne.symm h]
  | cons p d ih =>
    obtain ⟨k0, v0⟩ := p
    by_cases h0 : k0 = k
    · subst h0
      simp [dictSet, dictGet, Ne.symm h]
    · simp only [dictSet, dictGet, if_neg h0]
      by_cases h1 : k0 = k' <;> simp [dictGet, h1, ih]

theorem dictSet_append {α : Type _} (d : PyDict α) (k : ℕ) (v : α)
    (h : k ∉ dictKeys d) : dictSet d k v = d ++ [(k, v)] := by
  induction d with
  | nil => simp [dictSet]
  | cons p d ih =>
    obtain ⟨k0, v0⟩ := p
    simp only [dictKeys, List.map_cons, List.mem_cons] at h
    push_neg at h
    simp [dictSet, Ne.symm h.1, ih (by simpa [dictKeys] using h.2)]

theorem dictKeys_dictSet_mem {α : Type _} (d : PyDict α) (k : ℕ) (v : α)
    (h : k ∈ dictKeys d) : dictKeys (dictSet d k v) = dictKeys d := by
  induction d with
  | nil => simp [dictKeys] at h
  | cons p d ih =>
    obtain ⟨k0, v0⟩ := p
    by_cases h0 : k0 = k
    · simp [dictSet, dictKeys, h0]
    · simp only [dictKeys, List.map_cons, List.mem_cons] at h
      rcases h with h | h
      · exact absurd h.symm h0
      · have h2 := ih (by simpa [dictKeys] using h)
        simp only [dictKeys, List.map_cons] at h2 ⊢
        simp [dictSet, h0, h2]

theorem dictGet_mem {α : Type _} (d : PyDict α) (k : ℕ) (v : α)
    (h : dictGet d k = some v) : (k, v) ∈ d := by
  induction d with
  | nil => simp [dictGet] at h
  | cons p d ih =>
    obtain ⟨k0, v0⟩ := p
    by_cases h0 : k0 = k
    · subst h0
      simp [dictGet] at h
      simp [h]
    · simp [dictGet, h0] at h
      exact List.mem_cons_of_mem _ (ih h)

theorem dictGet_isSome_of_mem_keys {α : Type _} (d : PyDict α) (k : ℕ)
    (h : k ∈ dictKeys d) : ∃ v, dictGet d k = some v := by
  induction d with
  | nil => simp [dictKeys] at h
  | cons p d ih =>
    obtain ⟨k0, v0⟩ := p
    by_cases h0 : k0 = k
    · exact ⟨v0, by simp [dictGet, h0]⟩
    · simp only [dictKeys, List.map_cons, List.mem_cons] at h
      rcases h with h | h
      · exact absurd h.symm h0
      · simpa [dictGet, h0] using ih (by simpa [dictKeys] using h)

/-- A pairing list built from distinct keys answers lookups pointwise. -/
theorem dictGet_map_pair {α : Type _} (g : ℕ → α) (l : List ℕ) (n : ℕ)
    (hn : n ∈ l) : dictGet (l.map (fun k => (k, g k))) n = some (g n) := by
  induction l with
  | nil => simp at hn
  | cons a l ih =>
    by_cases h : a = n
    · subst h
      simp [dictGet]
    · rcases List.mem_cons.mp hn with rfl | hn2
      · exact absurd rfl h
      · simp [dictGet, h, ih hn2]

theorem dictGet_map_pair_not_mem {α : Type _} (g : ℕ → α) (l : List ℕ) (n : ℕ)
    (hn : n ∉ l) : dictGet (l.map (fun k => (k, g k))) n = none := by
  induction l with
  | nil => simp [dictGet]
  | cons a l ih =>
    simp only [List.mem_cons] at hn
    push_neg at hn
    simp [dictGet, Ne.symm hn.1, ih hn.2]

/-- Seeding a dict by repeated assignment of fresh distinct keys builds the
pairing list. -/
theorem foldl_dictSet_append {α : Type _} (g : ℕ → α) :
    ∀ (ns : List ℕ) (d : PyDict α), ns.Nodup → (∀ n ∈ ns, n ∉ dictKeys d) →
      ns.foldl (fun acc n => dictSet acc n (g n)) d = d ++ ns.map (fun n => (n, g n)) := by
  intro ns
  induction ns with
  | nil => intro d _ _; simp
  | cons a ns ih =>
    intro d hnd hfresh
    have ha : a ∉ dictKeys d := hfresh a (List.mem_cons_self a ns)
    have hstep : dictSet d a (g a) = d ++ [(a, g a)] := dictSet_append d a (g a) ha
    have hnd2 : ns.Nodup := (List.nodup_cons.mp hnd).2
    have hfresh2 : ∀ n ∈ ns, n ∉ dictKeys (d ++ [(a, g a)]) := by
      intro n hn hmem
      have hne : n ≠ a := fun hh => (List.nodup_cons.mp hnd).1 (hh ▸ hn)
      have hd : n ∉ dictKeys d := hfresh n (List.mem_cons_of_mem a hn)
      simp only [dictKeys, List.map_append, List.mem_append] at hmem
      rcases hmem with hmem | hmem
      · exact hd (by simpa [dictKeys] using hmem)
      · simp at hmem
        exact hne hmem
    simp only [List.foldl_cons, hstep]
    rw [ih (d ++ [(a, g a)]) hnd2 hfresh2]
    simp

/-! ## Nodal Point Coordinate Block (common.py lines 47-86) -/

/-- One record of the node block: the node id and the three coordinate
floats extracted by the fixed-width regex of the block reader (the
tokenization itself is the match_line / float machinery modelled above). -/
structure NodeRec where
  id : ℕ
  coords : PyFloat × PyFloat × PyFloat
deriving DecidableEq

/-- State of NodalPointCoordinateBlock after its constructor ran: the
module-level renumbered_nodes dict, the vtkPoints list indexed by the new
(dense) node number, and numnod = number of inserted points. -/
structure NodalPointCoordinateBlock where
  renumbered : PyDict ℕ
  points : List (PyFloat × PyFloat × PyFloat)
  numnod : ℕ
deriving DecidableEq

/-- The reading loop of NodalPointCoordinateBlock.__init__ (lines 60-77):
for each record, renumbered_nodes gains id -> new_node_number, the point is
inserted at index new_node_number (always the current length, so an
append), and the counter increments — also for a repeated node id. -/
def nodeLoop : PyDict ℕ → List (PyFloat × PyFloat × PyFloat) → ℕ → List NodeRec →
    PyDict ℕ × List (PyFloat × PyFloat × PyFloat)
  | renum, pts, _, [] => (renum, pts)
  | renum, pts, k, r :: rs => nodeLoop (dictSet renum r.id k) (pts ++ [r.coords]) (k + 1) rs

/-- NodalPointCoordinateBlock.__init__ on a list of decoded records,
starting from a cleared renumbered_nodes dict. -/
def NodalPointCoordinateBlock.init (recs : List NodeRec) : NodalPointCoordinateBlock :=
  let p := nodeLoop [] [] 0 recs
  ⟨p.1, p.2, p.2.length⟩

/-- Insertion into an ascending list, for the sorted() builtin. -/
def insertSorted (n : ℕ) : List ℕ → List ℕ
  | [] => [n]
  | m :: ms => if n ≤ m then n :: m :: ms else m :: insertSorted n ms

/-- Python sorted() on a list of naturals. -/
def sortAsc (l : List ℕ) : List ℕ := l.foldr insertSorted []

/-- get_node_numbers (lines 82-86): sorted(renumbered_nodes.keys()). -/
def get_node_numbers (renum : PyDict ℕ) : List ℕ := sortAsc (dictKeys renum)

/-- The pairing id -> dense index produced from position k onwards; the
intended content of renumbered_nodes for duplicate-free input. -/
def idIndexPairs : ℕ → List ℕ → PyDict ℕ
  | _, [] => []
  | k, a :: as => (a, k) :: idIndexPairs (k + 1) as

theorem idIndexPairs_fst : ∀ (k : ℕ) (ids : List ℕ),
    (idIndexPairs k ids).map Prod.fst = ids := by
  intro k ids
  induction ids generalizing k with
  | nil => rfl
  | cons a as ih => simp [idIndexPairs, ih]

theorem idIndexPairs_snd : ∀ (k : ℕ) (ids : List ℕ),
    (idIndexPairs k ids).map Prod.snd = List.range' k ids.length := by
  intro k ids
  induction ids generalizing k with
  | nil => rfl
  | cons a as ih => simp [idIndexPairs, List.range', ih]

theorem nodeLoop_fst : ∀ (recs : List NodeRec) (d : PyDict ℕ)
    (pts : List (PyFloat × PyFloat × PyFloat)) (k : ℕ),
    (recs.map NodeRec.id).Nodup → (∀ r ∈ recs, r.id ∉ dictKeys d) →
    (nodeLoop d pts k recs).1 = d ++ idIndexPairs k (recs.map NodeRec.id) := by
  intro recs
  induction recs with
  | nil => intro d pts k _ _; simp [nodeLoop, idIndexPairs]
  | cons r rs ih =>
    intro d pts k hnd hfresh
    have ha : r.id ∉ dictKeys d := hfresh r (List.mem_cons_self r rs)
    have hstep : dictSet d r.id k = d ++ [(r.id, k)] := dictSet_append d r.id k ha
    simp only [List.map_cons, List.nodup_cons] at hnd
    have hfresh2 : ∀ s ∈ rs, s.id ∉ dictKeys (d ++ [(r.id, k)]) := by
      intro s hs hmem
      have hne : s.id ≠ r.id := by
        intro hh
        exact hnd.1 (hh ▸ List.mem_map_of_mem NodeRec.id hs)
      have hd : s.id ∉ dictKeys d := hfresh s (List.mem_cons_of_mem r hs)
      simp only [dictKeys, List.map_append, List.mem_append] at hmem
      rcases hmem with hmem | hmem
      · exact hd (by simpa [dictKeys] using hmem)
      · simp at hmem
        exact hne hmem
    simp only [nodeLoop, hstep]
    rw [ih (d ++ [(r.id, k)]) (pts ++ [r.coords]) (k + 1) hnd.2 hfresh2]
    simp [idIndexPairs]

theorem nodeLoop_snd : ∀ (recs : List NodeRec) (d : PyDict ℕ)
    (pts : List (PyFloat × PyFloat × PyFloat)) (k : ℕ),
    (nodeLoop d pts k recs).2 = pts ++ recs.map NodeRec.coords := by
  intro recs
  induction recs with
  | nil => intro d pts k; simp [nodeLoop]
  | cons r rs ih =>
    intro d pts k
    simp only [nodeLoop]
    rw [ih]
    simp

/-- For records with pairwise distinct ids, the constructor produces
exactly the first-appearance pairing and one point per record. -/
theorem nodalBlock_of_nodup (recs : List NodeRec)
    (hnd : (recs.map NodeRec.id).Nodup) :
    NodalPointCoordinateBlock.init recs =
      ⟨idIndexPairs 0 (recs.map NodeRec.id), recs.map NodeRec.coords, recs.length⟩ := by
  have h1 := nodeLoop_fst recs [] [] 0 hnd (by intro r _; simp [dictKeys])
  have h2 := nodeLoop_snd recs [] [] 0
  simp only [NodalPointCoordinateBlock.init, h1, h2]
  simp

/-! ## Nodal Results Block decoding (common.py lines 524-590) -/

/-- One data record of a result block: the node id captured by the
`-1`-line regex, the characters of that line after the node id field, and
for each `-2` continuation line its characters after the marker. -/
structure DataLine where
  node : ℕ
  payload : List Char
  contPayloads : List (List Char)
deriving DecidableEq

/-- The 12-character groups captured by `(.{12})` repeated k times. -/
def chunks12 : ℕ → List Char → List (List Char)
  | 0, _ => []
  | k + 1, cs => cs.take 12 :: chunks12 k (cs.drop 12)

/-- Values of the first data row, via the per-token try/except; counter
increments are summed. -/
def parseRow : List (List Char) → Except String (List PyFloat × ℕ × ℕ)
  | [] => Except.ok ([], 0, 0)
  | t :: ts =>
    match parse_field t with
    | Except.error e => Except.error e
    | Except.ok (v, ni, wf) =>
      match parseRow ts with
      | Except.error e => Except.error e
      | Except.ok (vs, nis, wfs) => Except.ok (v :: vs, ni + nis, wf + wfs)

/-- Values of a continuation row: plain float() with no try/except and no
counters (lines 576-582), so an unparseable token aborts the block. -/
def parseContRow : List (List Char) → Except String (List PyFloat)
  | [] => Except.ok []
  | t :: ts =>
    match pyFloatOfChars t with
    | none => Except.error "ValueError: could not convert string to float"
    | some v =>
      match parseContRow ts with
      | Except.error e => Except.error e
      | Except.ok vs => Except.ok (v :: vs)

/-- Number of values on the first data row: min(6, ncomps). -/
def row_comps (nc : ℕ) : ℕ := min 6 nc

/-- Number of values on continuation row j (0-based): min(6, ncomps-6*(j+1)). -/
def cont_comps (nc j : ℕ) : ℕ := min 6 (nc - 6 * (j + 1))

/-- Reads the continuation rows, one per loop iteration j; each row must
carry cont_comps characters worth of 12-char fields or the `-2` regex
fails with SyntaxError. -/
def readContRows (nc : ℕ) : ℕ → List (List Char) → Except String (List PyFloat)
  | _, [] => Except.ok []
  | j, p :: ps =>
    let rcj := cont_comps nc j
    if p.length < 12 * rcj then Except.error "SyntaxError: cant parse line"
    else
      match parseContRow (chunks12 rcj p) with
      | Except.error e => Except.error e
      | Except.ok vs =>
        match readContRows nc (j + 1) ps with
        | Except.error e => Except.error e
        | Except.ok rest => Except.ok (vs ++ rest)

/-- Decoding of one record: the `-1` row of row_comps 12-char fields
(SyntaxError when the line is too short for the regex), then exactly
(ncomps-1)//6 continuation rows read from the file, whose values extend
the assigned vector. Returns the full vector and the (NaNInf, WrongFormat)
counter increments. -/
def readRecord (nc : ℕ) (l : DataLine) : Except String (List PyFloat × ℕ × ℕ) :=
  if l.payload.length < 12 * row_comps nc then Except.error "SyntaxError: cant parse line"
  else
    match parseRow (chunks12 (row_comps nc) l.payload) with
    | Except.error e => Except.error e
    | Except.ok (data, ni, wf) =>
      if l.contPayloads.length ≠ (nc - 1) / 6 then
        Except.error "SyntaxError: cant parse line"
      else
        match readContRows nc 0 l.contPayloads with
        | Except.error e => Except.error e
        | Except.ok rest => Except.ok (data ++ rest, ni, wf)

/-- Result of NodalResultsBlock.read_nodal_results: the results dict, the
two per-block warning counters and the independent results counter. -/
structure DecodeOut where
  results : PyDict (List PyFloat)
  nanInfCount : ℕ
  wrongFormatCount : ℕ
  resultsCounter : ℕ
deriving DecidableEq

/-- The zero pre-seed (lines 536-537): every node of the current geometry
gets the all-zero vector of length ncomps before any data line applies. -/
def seedResults (nodes : List ℕ) (nc : ℕ) : PyDict (List PyFloat) :=
  nodes.foldl (fun d n => dictSet d n (List.replicate nc pyZero)) []

/-- The record loop (lines 545-582): each record overwrites the vector of
its node and bumps the independent results counter by one. -/
def decodeLoop (nc : ℕ) :
    PyDict (List PyFloat) → ℕ → ℕ → ℕ → List DataLine → Except String DecodeOut
  | d, ni, wf, cnt, [] => Except.ok ⟨d, ni, wf, cnt⟩
  | d, ni, wf, cnt, l :: ls =>
    match readRecord nc l with
    | Except.error e => Except.error e
    | Except.ok (data, dni, dwf) =>
      decodeLoop nc (dictSet d l.node data) (ni + dni) (wf + dwf) (cnt + 1) ls

/-- read_nodal_results on the geometry node list (get_node_numbers of the
node block), the effective component count (after the ALL adjustment of
read_components_info) and the decoded record list of the block. -/
def read_nodal_results (nodes : List ℕ) (nc : ℕ) (ls : List DataLine) :
    Except String DecodeOut :=
  decodeLoop nc (seedResults nodes nc) 0 0 0 ls

/-! ## convert_frd_data_to_vtk (common.py lines 848-887) -/

/-- One step of the NaN/Inf scrub (lines 874-880): an infinite value
becomes 0.0 and bumps the Inf counter; a NaN becomes 0.0 and bumps the NaN
counter; finite values pass through. -/
def clean_value (r : PyFloat) : PyFloat × ℕ × ℕ :=
  match r with
  | PyFloat.posInf => (pyZero, 1, 0)
  | PyFloat.negInf => (pyZero, 1, 0)
  | PyFloat.nan => (pyZero, 0, 1)
  | v => (v, 0, 0)

/-- The in-order scrub of one node vector, with (Inf, NaN) counter sums. -/
def clean_values : List PyFloat → List PyFloat × ℕ × ℕ
  | [] => ([], 0, 0)
  | v :: vs =>
    let c := clean_value v
    let r := clean_values vs
    (c.1 :: r.1, c.2.1 + r.2.1, c.2.2 + r.2.2)

/-- The assignment loop of convert_frd_data_to_vtk (lines 871-881): for
the i-th entry n of the sorted node-number list, b.results[n] is fetched
(KeyError aborts), scrubbed in place — the scrub mutates the list object
held by the results dict — and inserted as tuple i. Returns the tuple
list, the mutated results dict and the (Inf, NaN) counters. -/
def convertLoop (results : PyDict (List PyFloat)) :
    List ℕ → Except String (List (List PyFloat) × PyDict (List PyFloat) × ℕ × ℕ)
  | [] => Except.ok ([], results, 0, 0)
  | n :: ns =>
    match dictGet results n with
    | none => Except.error "KeyError"
    | some vs =>
      let c := clean_values vs
      match convertLoop (dictSet results n c.1) ns with
      | Except.error e => Except.error e
      | Except.ok (tuples, res, ni, nn) =>
        Except.ok (c.1 :: tuples, res, c.2.1 + ni, c.2.2 + nn)

/-- convert_frd_data_to_vtk on the decoded results of a block and the
renumbered_nodes dict of the geometry: tuple i belongs to the i-th entry
of sorted(renumbered_nodes.keys()). -/
def convert_frd_data_to_vtk (results : PyDict (List PyFloat)) (renum : PyDict ℕ) :
    Except String (List (List PyFloat) × PyDict (List PyFloat) × ℕ × ℕ) :=
  convertLoop results (get_node_numbers renum)

/-! ## Element Type Catalog and Element Definition Block
(common.py lines 115-387) -/

/-- An FRD element type code as it can reach convert_elem_type: a numeric
code (the form the element block reader produces via int()) or a symbolic
name. -/
inductive FrdElemType where
  | num : ℕ → FrdElemType
  | txt : String → FrdElemType
deriving DecidableEq

/-- The frd2vtk_num dict (lines 213-225). -/
def frd2vtk_num : List (ℕ × ℕ) :=
  [(1, 12), (2, 13), (3, 10), (4, 25), (5, 13), (6, 24), (7, 5), (8, 22),
   (9, 9), (10, 23), (11, 3), (12, 21)]

/-- The frd2vtk_txt dict (lines 226-285). -/
def frd2vtk_txt : List (String × ℕ) :=
  [("C3D8", 12), ("F3D8", 12), ("C3D8R", 12), ("C3D8I", 12),
   ("C3D6", 13), ("F3D6", 13), ("C3D4", 10), ("F3D4", 10),
   ("C3D20", 25), ("C3D20R", 25), ("C3D15", 13), ("C3D10", 24), ("C3D10T", 24),
   ("S3", 5), ("M3D3", 5), ("CPS3", 5), ("CPE3", 5), ("CAX3", 5),
   ("S6", 22), ("M3D6", 22), ("CPS6", 22), ("CPE6", 22), ("CAX6", 22),
   ("S4", 9), ("S4R", 9), ("M3D4", 9), ("M3D4R", 9), ("CPS4", 9),
   ("CPS4R", 9), ("CPE4", 9), ("CPE4R", 9), ("CAX4", 9), ("CAX4R", 9),
   ("S8", 23), ("S8R", 23), ("M3D8", 23), ("M3D8R", 23), ("CPS8", 23),
   ("CPS8R", 23), ("CPE8", 23), ("CPE8R", 23), ("CAX8", 23), ("CAX8R", 23),
   ("B21", 3), ("B31", 3), ("B31R", 3), ("T2D2", 3), ("T3D2", 3),
   ("GAPUNI", 3), ("DASHPOTA", 3), ("SPRING2", 3), ("SPRINGA", 3),
   ("B32", 21), ("B32R", 21), ("T3D3", 21), ("D", 21),
   ("SPRING1", 1), ("DCOUP3D", 1), ("MASS", 1)]

/-- Lookup in frd2vtk_num. -/
def lookupNum (k : ℕ) : Option ℕ :=
  (frd2vtk_num.find? (fun p => p.1 == k)).map Prod.snd

/-- Lookup in frd2vtk_txt. -/
def lookupTxt (k : String) : Option ℕ :=
  (frd2vtk_txt.find? (fun p => p.1 == k)).map Prod.snd

/-- convert_elem_type (lines 115-290): the numeric table, then the
symbolic table, then the sentinel 0 for anything unknown. -/
def convert_elem_type : FrdElemType → ℕ
  | FrdElemType.num t => (lookupNum t).getD 0
  | FrdElemType.txt s => (lookupTxt s).getD 0

/-- e_nodes[i] with the Python IndexError on an out-of-range subscript
(negative subscripts never arise here). -/
def pyIndex {α : Type _} (l : List α) (i : ℕ) : Except String α :=
  match l.get? i with
  | some a => Except.ok a
  | none => Except.error "IndexError: list index out of range"

/-- The index order used for the 20-node brick (lines 300-307):
positions 0-11, then 16-19, then 12-15. -/
def node_num_list_20 : List ℕ :=
  [0, 1, 2, 3, 4, 5, 6, 7, 8, 9, 10, 11, 16, 17, 18, 19, 12, 13, 14, 15]

/-- get_element_connectivity (lines 293-323): type 4 uses the brick
reordering; types 5 and 2 keep the six wedge corners in order
[0,2,1,3,5,4] (dropping the rest); every other type copies e_nodes in
order. -/
def get_element_connectivity (e_type : ℕ) (e_nodes : List ℕ) :
    Except String (List ℕ) :=
  if e_type = 4 then node_num_list_20.mapM (pyIndex e_nodes)
  else if e_type = 5 ∨ e_type = 2 then [0, 2, 1, 3, 5, 4].mapM (pyIndex e_nodes)
  else Except.ok e_nodes

/-- num_lines (lines 383-387): subscript into the fixed 13-tuple; a
numeric type code outside 0..12 raises IndexError. -/
def num_lines (etype : ℕ) : Except String ℕ :=
  match [0, 1, 1, 1, 2, 2, 1, 1, 1, 1, 1, 1, 1].get? etype with
  | some n => Except.ok n
  | none => Except.error "IndexError: tuple index out of range"

/-- One element record: the numeric type code parsed by int() from the
`-1` header and the node ids of its `-2` body lines as listed in the
file. -/
structure ElemRec where
  etype : ℕ
  nodeLines : List (List ℕ)
deriving DecidableEq

/-- Resolution of the source node ids through renumbered_nodes
(line 370); a node id absent from the map raises KeyError. -/
def resolveNodes (renum : PyDict ℕ) (ns : List ℕ) : Except String (List ℕ) :=
  ns.mapM (fun n =>
    match dictGet renum n with
    | some v => Except.ok v
    | none => Except.error "KeyError")

/-- read_element (lines 349-381): num_lines body lines are consumed and
their node ids renumbered, the VTK type (sentinel 0 when unknown) is
appended to types, and the permuted connectivity is inserted as a new
cell — also when the type is the unsupported sentinel. -/
def read_element (renum : PyDict ℕ) (r : ElemRec) : Except String (ℕ × List ℕ) :=
  match num_lines r.etype with
  | Except.error e => Except.error e
  | Except.ok k =>
    if r.nodeLines.length ≠ k then Except.error "SyntaxError: cant parse line"
    else
      match resolveNodes renum r.nodeLines.flatten with
      | Except.error e => Except.error e
      | Except.ok e_nodes =>
        match get_element_connectivity r.etype e_nodes with
        | Except.error e => Except.error e
        | Except.ok conn => Except.ok (convert_elem_type (FrdElemType.num r.etype), conn)

/-- State of ElementDefinitionBlock after its constructor: the cell type
list, the connectivity list and numelem. -/
structure ElementDefinitionBlock where
  types : List ℕ
  cells : List (List ℕ)
  numelem : ℕ
deriving DecidableEq

/-- The element block reading loop. -/
def elemLoop (renum : PyDict ℕ) :
    List ℕ → List (List ℕ) → List ElemRec → Except String ElementDefinitionBlock
  | ts, cs, [] => Except.ok ⟨ts, cs, cs.length⟩
  | ts, cs, r :: rs =>
    match read_element renum r with
    | Except.error e => Except.error e
    | Except.ok (t, conn) => elemLoop renum (ts ++ [t]) (cs ++ [conn]) rs

/-- ElementDefinitionBlock.__init__ on decoded records. -/
def readElemBlock (renum : PyDict ℕ) (recs : List ElemRec) :
    Except String ElementDefinitionBlock :=
  elemLoop renum [] [] recs

example : convert_elem_type (FrdElemType.num 4) = 25 := by decide
example : convert_elem_type (FrdElemType.num 13) = 0 := by decide
example : convert_elem_type (FrdElemType.txt "SPRINGA") = 3 := by decide
example : convert_elem_type (FrdElemType.txt "FOO") = 0 := by decide
example : num_lines 13 = Except.error "IndexError: tuple index out of range" := by decide
example : readElemBlock [] [⟨13, [[1, 2], [3, 4]]⟩] =
    Except.error "IndexError: tuple index out of range" := by decide
example : readElemBlock [] [⟨0, []⟩] = Except.ok ⟨[0], [[]], 1⟩ := by decide

/-! ## FRD.parse_mesh, FRD.has_mesh and Converter.run
(common.py lines 616-645, 806-812, 903-914) -/

/-- A block-level view of the source file, as parse_mesh dispatches on the
first-five-character key of each line: a node block (key 2), an element
block (key 3), a result block header (key 100, which ends the mesh scan),
the end marker 9999, or any other line. -/
inductive FrdItem where
  | nodeBlk (recs : List NodeRec)
  | elemBlk (recs : List ElemRec)
  | resultBlk
  | endKey
  | other
deriving DecidableEq

/-- The parse_mesh scanning loop (lines 618-639). A node block clears and
refills renumbered_nodes; an element block resolves its node ids through
the current renumbered_nodes (the empty dict when no node block was seen,
so any node reference raises KeyError). -/
def parseMeshLoop :
    Option NodalPointCoordinateBlock → Option ElementDefinitionBlock → List FrdItem →
      Except String (Option NodalPointCoordinateBlock × Option ElementDefinitionBlock)
  | nb, eb, [] => Except.ok (nb, eb)
  | nb, eb, item :: rest =>
    match item with
    | FrdItem.nodeBlk recs => parseMeshLoop (some (NodalPointCoordinateBlock.init recs)) eb rest
    | FrdItem.elemBlk recs =>
      match readElemBlock (match nb with | some b => b.renumbered | none => []) recs with
      | Except.error e => Except.error e
      | Except.ok b => parseMeshLoop nb (some b) rest
    | FrdItem.resultBlk => Except.ok (nb, eb)
    | FrdItem.endKey => Except.ok (nb, eb)
    | FrdItem.other => parseMeshLoop nb eb rest

/-- The unconditional attribute accesses ending parse_mesh (lines
641-645): `self.node_block.numnod` and `self.elem_block.numelem` raise
AttributeError when the corresponding block was never created. -/
def checkMeshAttrs :
    Option NodalPointCoordinateBlock → Option ElementDefinitionBlock →
      Except String (NodalPointCoordinateBlock × ElementDefinitionBlock)
  | none, _ => Except.error "AttributeError: NoneType object has no attribute numnod"
  | some _, none => Except.error "AttributeError: NoneType object has no attribute numelem"
  | some nb, some eb => Except.ok (nb, eb)

/-- FRD.parse_mesh: the scan, then the attribute accesses. -/
def parse_mesh (items : List FrdItem) :
    Except String (NodalPointCoordinateBlock × ElementDefinitionBlock) :=
  match parseMeshLoop none none items with
  | Except.error e => Except.error e
  | Except.ok (nb, eb) => checkMeshAttrs nb eb

/-- FRD.has_mesh (lines 806-812): true when both blocks exist. -/
def has_mesh (nb : Option NodalPointCoordinateBlock)
    (eb : Option ElementDefinitionBlock) : Bool :=
  nb.isSome && eb.isSome

/-- Observable outcome of Converter.run. -/
inductive RunOutcome where
  | emptyFile
  | converted
deriving DecidableEq

/-- Converter.run (lines 903-914) up to the point the empty-input policy
is decided: parse_mesh runs first and its exceptions propagate out of
run; only if it returns does has_mesh get to trigger the clean empty-file
return (no writes); otherwise the conversion proceeds to the writing
stage (out of scope for the empty-input claim). -/
def converter_run (items : List FrdItem) : Except String RunOutcome :=
  match parseMeshLoop none none items with
  | Except.error e => Except.error e
  | Except.ok (nb, eb) =>
    match checkMeshAttrs nb eb with
    | Except.error e => Except.error e
    | Except.ok _ =>
      if has_mesh nb eb then Except.ok RunOutcome.converted
      else Except.ok RunOutcome.emptyFile

example : converter_run [] =
    Except.error "AttributeError: NoneType object has no attribute numnod" := by decide
example : converter_run [FrdItem.endKey] =
    Except.error "AttributeError: NoneType object has no attribute numnod" := by decide
example : converter_run [FrdItem.nodeBlk [⟨1, (pyZero, pyZero, pyZero)⟩], FrdItem.endKey] =
    Except.error "AttributeError: NoneType object has no attribute numelem" := by decide

/-! ## Mises derivation (common.py lines 711-773)

The tensor components entering the Mises formula are arbitrary reals here;
math.sqrt on them is modelled as Real.sqrt (the claim compares two
algebraic forms of the same expression, not rounded values), which makes
the definitions of this section noncomputable — nothing in them needs to
be evaluated on concrete input by the kernel. -/

/-- A nodal results block as the Mises derivation sees it: metadata and a
results dict of real vectors. -/
structure TensorBlock where
  name : String
  components : List String
  ncomps : ℕ
  inc : PyFloat
  step : ℤ
  results : PyDict (List ℝ)

/-- Six tensor components as the list [xx, yy, zz, xy, yz, xz]. -/
def sixList (t : ℝ × ℝ × ℝ × ℝ × ℝ × ℝ) : List ℝ :=
  [t.1, t.2.1, t.2.2.1, t.2.2.2.1, t.2.2.2.2.1, t.2.2.2.2.2]

/-- The per-node expression of calculate_mises_stress (lines 731-737) and,
verbatim, of calculate_mises_strain (lines 763-769):
1 / sqrt(2) * sqrt((xx-yy)^2 + (yy-zz)^2 + (zz-xx)^2 + 6 yz^2 + 6 xz^2 + 6 xy^2). -/
noncomputable def mises_formula (s_xx s_yy s_zz s_xy s_yz s_xz : ℝ) : ℝ :=
  1 / Real.sqrt 2 *
    Real.sqrt ((s_xx - s_yy) ^ 2 + (s_yy - s_zz) ^ 2 + (s_zz - s_xx) ^ 2 +
      6 * s_yz ^ 2 + 6 * s_xz ^ 2 + 6 * s_xy ^ 2)

/-- mises_formula on a component six-tuple. -/
noncomputable def misesOfSix (t : ℝ × ℝ × ℝ × ℝ × ℝ × ℝ) : ℝ :=
  mises_formula t.1 t.2.1 t.2.2.1 t.2.2.2.1 t.2.2.2.2.1 t.2.2.2.2.2

/-- The node loop shared verbatim by calculate_mises_stress and
calculate_mises_strain (lines 720-738 and 752-770): for each geometry
node, data = b.results[node_num] (KeyError when absent), the first six
entries are unpacked (IndexError when the vector is shorter), and
b1.results[node_num] becomes the one-element list with the Mises value. -/
noncomputable def misesLoop (src : PyDict (List ℝ)) :
    PyDict (List ℝ) → List ℕ → Except String (PyDict (List ℝ))
  | acc, [] => Except.ok acc
  | acc, n :: ns =>
    match dictGet src n with
    | none => Except.error "KeyError"
    | some data =>
      match data with
      | s_xx :: s_yy :: s_zz :: s_xy :: s_yz :: s_xz :: _ =>
        misesLoop src (dictSet acc n [mises_formula s_xx s_yy s_zz s_xy s_yz s_xz]) ns
      | _ => Except.error "IndexError: list index out of range"

/-- FRD.calculate_mises_stress (lines 711-741): the derived block is named
name + _Mises, has that single component, and copies inc and step from
the source block; nodes is get_node_numbers of the geometry. -/
noncomputable def calculate_mises_stress (nodes : List ℕ) (b : TensorBlock) :
    Except String TensorBlock :=
  match misesLoop b.results [] nodes with
  | Except.error e => Except.error e
  | Except.ok res =>
    Except.ok ⟨b.name ++ "_Mises", [b.name ++ "_Mises"], 1, b.inc, b.step, res⟩

/-- FRD.calculate_mises_strain (lines 743-773): a verbatim copy of
calculate_mises_stress applied to a strain block — the same coefficient.
-/
noncomputable def calculate_mises_strain (nodes : List ℕ) (b : TensorBlock) :
    Except String TensorBlock :=
  match misesLoop b.results [] nodes with
  | Except.error e => Except.error e
  | Except.ok res =>
    Except.ok ⟨b.name ++ "_Mises", [b.name ++ "_Mises"], 1, b.inc, b.step, res⟩

theorem misesLoop_spec (vals : ℕ → ℝ × ℝ × ℝ × ℝ × ℝ × ℝ) :
    ∀ (ns : List ℕ) (src acc : PyDict (List ℝ)), ns.Nodup →
    (∀ n ∈ ns, n ∉ dictKeys acc) →
    (∀ n ∈ ns, dictGet src n = some (sixList (vals n))) →
    misesLoop src acc ns =
      Except.ok (acc ++ ns.map (fun n => (n, [misesOfSix (vals n)]))) := by
  intro ns
  induction ns with
  | nil => intro src acc _ _ _; simp [misesLoop]
  | cons a ns ih =>
    intro src acc hnd hfresh hsrc
    have hga := hsrc a (List.mem_cons_self a ns)
    have hfa : a ∉ dictKeys acc := hfresh a (List.mem_cons_self a ns)
    have hset : dictSet acc a [misesOfSix (vals a)] = acc ++ [(a, [misesOfSix (vals a)])] :=
      dictSet_append acc a _ hfa
    have hnd2 := (List.nodup_cons.mp hnd).2
    have hfresh2 : ∀ n ∈ ns, n ∉ dictKeys (acc ++ [(a, [misesOfSix (vals a)])]) := by
      intro n hn hmem
      have hne : n ≠ a := fun hh => (List.nodup_cons.mp hnd).1 (hh ▸ hn)
      have hd : n ∉ dictKeys acc := hfresh n (List.mem_cons_of_mem a hn)
      simp only [dictKeys, List.map_append, List.mem_append] at hmem
      rcases hmem with hmem | hmem
      · exact hd (by simpa [dictKeys] using hmem)
      · simp at hmem
        exact hne hmem
    have hsrc2 : ∀ n ∈ ns, dictGet src n = some (sixList (vals n)) := fun n hn =>
      hsrc n (List.mem_cons_of_mem a hn)
    simp only [misesLoop, hga, sixList, misesOfSix]
    rw [show dictSet acc a [mises_formula (vals a).1 (vals a).2.1 (vals a).2.2.1
        (vals a).2.2.2.1 (vals a).2.2.2.2.1 (vals a).2.2.2.2.2] =
        acc ++ [(a, [misesOfSix (vals a)])] from hset]
    rw [ih src (acc ++ [(a, [misesOfSix (vals a)])]) hnd2 hfresh2 hsrc2]
    simp [misesOfSix]

/-! ## Claim theorems -/

theorem Dec.toRat_ofNat (m : ℤ) (n : ℕ) : Dec.toRat ⟨m, (n : ℤ)⟩ = (m : ℚ) * 10 ^ n := by
  simp [Dec.toRat, zpow_natCast]

/-- C2: the claim says the token 1.234+100 decodes to 1.234e+100 with a
wrong-format count of 1. In the code, standard parsing indeed fails and the
counter is incremented by exactly 1, but the repair regex
`(.+).([+-])(\d\x7b3\x7d)` also swallows the character before the sign (the
stray `.`), so the token is rewritten to 1.23e+100 and decodes to
1.23 * 10 ^ 100, not to the claimed 1.234 * 10 ^ 100. -/
theorem c2_repair_drops_digit_before_sign :
    pyFloatOfChars "1.234+100".toList = none ∧
    reSubFix "1.234+100".toList = "1.23e+100".toList ∧
    parse_field "1.234+100".toList = Except.ok (PyFloat.finite ⟨123, 98⟩, 0, 1) ∧
    Dec.toRat ⟨123, 98⟩ = 123 * 10 ^ (98 : ℕ) ∧
    (123 * 10 ^ (98 : ℕ) : ℚ) ≠ 1234 / 1000 * 10 ^ (100 : ℕ) := by
  refine ⟨by decide, by decide, by decide, Dec.toRat_ofNat 123 98, ?_⟩
  norm_num

/-- C3 counterexample: for an element record whose numeric type code 13
has no catalog entry, the conversion does abort — num_lines subscripts a
13-element tuple and raises IndexError, which propagates out of the
element block reader. -/
theorem c3_unknown_numeric_type_aborts :
    readElemBlock [] [⟨13, [[1, 2], [3, 4]]⟩] =
      Except.error "IndexError: tuple index out of range" := by decide

/-- C3 (amended): convert_elem_type maps every type code missing from both
catalog tables to the sentinel 0 without error; but an element record
whose numeric code is outside 0..12 aborts the whole element block with an
IndexError in the num_lines lookup (it is not a non-fatal warning), and an
element that does receive the sentinel type (numeric code 0) is still
appended to the cell list with type 0 rather than excluded from
connectivity. -/
theorem c3_unknown_type_sentinel_amended :
    (∀ t : ℕ, lookupNum t = none → convert_elem_type (FrdElemType.num t) = 0) ∧
    (∀ s : String, lookupTxt s = none → convert_elem_type (FrdElemType.txt s) = 0) ∧
    (∀ t : ℕ, 13 ≤ t → num_lines t = Except.error "IndexError: tuple index out of range") ∧
    (∀ (renum : PyDict ℕ) (t : ℕ), 13 ≤ t → ∀ ls,
      read_element renum ⟨t, ls⟩ = Except.error "IndexError: tuple index out of range") ∧
    readElemBlock [] [⟨0, []⟩] = Except.ok ⟨[0], [[]], 1⟩ := by
  refine ⟨?_, ?_, ?_, ?_, by decide⟩
  · intro t ht
    simp [convert_elem_type, ht]
  · intro s hs
    simp [convert_elem_type, hs]
  · intro t ht
    have hnone : ([0, 1, 1, 1, 2, 2, 1, 1, 1, 1, 1, 1, 1] : List ℕ)[t]? = none := by
      apply List.getElem?_eq_none
      simpa using ht
    simp [num_lines, hnone]
  · intro renum t ht ls
    have hnone : ([0, 1, 1, 1, 2, 2, 1, 1, 1, 1, 1, 1, 1] : List ℕ)[t]? = none := by
      apply List.getElem?_eq_none
      simpa using ht
    simp [read_element, num_lines, hnone]

/-- C3 witness: concrete instances of the amended statement. -/
theorem c3_unknown_type_sentinel_amended_witness :
    convert_elem_type (FrdElemType.num 99) = 0 ∧
    convert_elem_type (FrdElemType.txt "FOO") = 0 ∧
    num_lines 14 = Except.error "IndexError: tuple index out of range" ∧
    read_element [] ⟨14, []⟩ = Except.error "IndexError: tuple index out of range" :=
  ⟨c3_unknown_type_sentinel_amended.1 99 (by decide),
   c3_unknown_type_sentinel_amended.2.1 "FOO" (by decide),
   c3_unknown_type_sentinel_amended.2.2.1 14 (by decide),
   c3_unknown_type_sentinel_amended.2.2.2.1 [] 14 (by decide) []⟩

/-- C4: the claim says a source with no node or element block yields a
clean empty-file return with no writes. In the code, parse_mesh
unconditionally dereferences self.node_block.numnod (and
self.elem_block.numelem), which raises AttributeError on None before
has_mesh can return the empty-file outcome, so Converter.run propagates an
exception instead of returning cleanly: shown on the empty file, on a file
holding only the 9999 end marker, and on a file with a node block but no
element block. -/
theorem c4_empty_file_raises_attribute_error :
    converter_run [] =
      Except.error "AttributeError: NoneType object has no attribute numnod" ∧
    converter_run [FrdItem.endKey] =
      Except.error "AttributeError: NoneType object has no attribute numnod" ∧
    converter_run [FrdItem.nodeBlk [⟨1, (pyZero, pyZero, pyZero)⟩], FrdItem.endKey] =
      Except.error "AttributeError: NoneType object has no attribute numelem" := by
  exact ⟨by decide, by decide, by decide⟩

/-- C6: the connectivity permutations — for a 20-node brick (type 4) the
output order is positions 1-12, 17-20, 13-16 of the renumbered images; for
a 15-node (type 5) or 6-node (type 2) wedge the output is exactly the six
renumbered images in order [1,3,2,4,6,5] (positions 7-15 dropped for type
5); every other type keeps identity order. The renumbering map f is
applied before the permutation, as in read_element. -/
theorem c6_connectivity_permutations (f : ℕ → ℕ) :
    (∀ n1 n2 n3 n4 n5 n6 n7 n8 n9 n10 n11 n12 n13 n14 n15 n16 n17 n18 n19 n20 : ℕ,
      get_element_connectivity 4
        ([n1, n2, n3, n4, n5, n6, n7, n8, n9, n10, n11, n12, n13, n14, n15, n16,
          n17, n18, n19, n20].map f) =
      Except.ok ([n1, n2, n3, n4, n5, n6, n7, n8, n9, n10, n11, n12,
          n17, n18, n19, n20, n13, n14, n15, n16].map f)) ∧
    (∀ n1 n2 n3 n4 n5 n6 n7 n8 n9 n10 n11 n12 n13 n14 n15 : ℕ,
      get_element_connectivity 5
        ([n1, n2, n3, n4, n5, n6, n7, n8, n9, n10, n11, n12, n13, n14, n15].map f) =
      Except.ok ([n1, n3, n2, n4, n6, n5].map f)) ∧
    (∀ n1 n2 n3 n4 n5 n6 : ℕ,
      get_element_connectivity 2 ([n1, n2, n3, n4, n5, n6].map f) =
        Except.ok ([n1, n3, n2, n4, n6, n5].map f)) ∧
    (∀ (t : ℕ) (ns : List ℕ), t ≠ 4 → t ≠ 5 → t ≠ 2 →
      get_element_connectivity t ns = Except.ok ns) := by
  refine ⟨?_, ?_, ?_, ?_⟩
  · intro n1 n2 n3 n4 n5 n6 n7 n8 n9 n10 n11 n12 n13 n14 n15 n16 n17 n18 n19 n20
    rfl
  · intro n1 n2 n3 n4 n5 n6 n7 n8 n9 n10 n11 n12 n13 n14 n15
    rfl
  · intro n1 n2 n3 n4 n5 n6
    rfl
  · intro t ns h4 h5 h2
    simp [get_element_connectivity, h4, h5, h2]

/-- C6 witness: concrete instances of every conjunct. -/
theorem c6_connectivity_permutations_witness :
    get_element_connectivity 4
      ([1, 2, 3, 4, 5, 6, 7, 8, 9, 10, 11, 12, 13, 14, 15, 16, 17, 18, 19, 20].map (· + 100)) =
      Except.ok ([1, 2, 3, 4, 5, 6, 7, 8, 9, 10, 11, 12,
          17, 18, 19, 20, 13, 14, 15, 16].map (· + 100)) ∧
    get_element_connectivity 5
      ([1, 2, 3, 4, 5, 6, 7, 8, 9, 10, 11, 12, 13, 14, 15].map (· + 100)) =
      Except.ok ([1, 3, 2, 4, 6, 5].map (· + 100)) ∧
    get_element_connectivity 2 ([1, 2, 3, 4, 5, 6].map (· + 100)) =
      Except.ok ([1, 3, 2, 4, 6, 5].map (· + 100)) ∧
    get_element_connectivity 3 [7, 8, 9, 10] = Except.ok [7, 8, 9, 10] :=
  ⟨(c6_connectivity_permutations (· + 100)).1 1 2 3 4 5 6 7 8 9 10 11 12 13 14 15 16 17 18 19 20,
   (c6_connectivity_permutations (· + 100)).2.1 1 2 3 4 5 6 7 8 9 10 11 12 13 14 15,
   (c6_connectivity_permutations (· + 100)).2.2.1 1 2 3 4 5 6,
   (c6_connectivity_permutations (· + 100)).2.2.2 3 [7, 8, 9, 10]
     (by decide) (by decide) (by decide)⟩

/-- C5 counterexample: a node block of N = 2 records that share the node
id 7 yields numnod = 2, but the renumber map holds the single pair (7, 1):
its image misses the dense index 0, so it is not a bijection onto
0..N-1 — the claim as stated, quantified over every node block, fails. -/
theorem c5_duplicate_id_breaks_bijectivity :
    (NodalPointCoordinateBlock.init
        [⟨7, (pyZero, pyZero, pyZero)⟩, ⟨7, (pyZero, pyZero, pyZero)⟩]).numnod = 2 ∧
    (NodalPointCoordinateBlock.init
        [⟨7, (pyZero, pyZero, pyZero)⟩, ⟨7, (pyZero, pyZero, pyZero)⟩]).renumbered =
      [(7, 1)] ∧
    0 ∉ ((NodalPointCoordinateBlock.init
        [⟨7, (pyZero, pyZero, pyZero)⟩, ⟨7, (pyZero, pyZero, pyZero)⟩]).renumbered.map
          Prod.snd) :=
  ⟨by decide, by decide, by decide⟩

/-- C5 (amended): for every node block with N records whose node ids are
pairwise distinct, the renumber map is a bijection onto 0..N-1 after
coordinate-block decoding — its keys are the source ids in appearance
order, its dense-index image is exactly [0, ..., N-1] with no gaps, any
two distinct source ids receive distinct dense indices, and numnod = N. -/
theorem c5_renumbering_bijectivity (recs : List NodeRec)
    (hnd : (recs.map NodeRec.id).Nodup) :
    (NodalPointCoordinateBlock.init recs).numnod = recs.length ∧
    dictKeys (NodalPointCoordinateBlock.init recs).renumbered = recs.map NodeRec.id ∧
    (NodalPointCoordinateBlock.init recs).renumbered.map Prod.snd =
      List.range recs.length ∧
    (∀ a b : ℕ, a ∈ recs.map NodeRec.id → b ∈ recs.map NodeRec.id → a ≠ b →
      dictGet (NodalPointCoordinateBlock.init recs).renumbered a ≠
        dictGet (NodalPointCoordinateBlock.init recs).renumbered b) := by
  rw [nodalBlock_of_nodup recs hnd]
  refine ⟨rfl, idIndexPairs_fst 0 _, ?_, ?_⟩
  · rw [idIndexPairs_snd]
    simp [List.range_eq_range', List.length_map]
  · intro a b ha hb hab heq
    have hka : a ∈ dictKeys (idIndexPairs 0 (recs.map NodeRec.id)) := by
      rw [show dictKeys (idIndexPairs 0 (recs.map NodeRec.id)) = recs.map NodeRec.id from
        idIndexPairs_fst 0 _]
      exact ha
    have hkb : b ∈ dictKeys (idIndexPairs 0 (recs.map NodeRec.id)) := by
      rw [show dictKeys (idIndexPairs 0 (recs.map NodeRec.id)) = recs.map NodeRec.id from
        idIndexPairs_fst 0 _]
      exact hb
    obtain ⟨va, hva⟩ := dictGet_isSome_of_mem_keys _ a hka
    obtain ⟨vb, hvb⟩ := dictGet_isSome_of_mem_keys _ b hkb
    rw [hva, hvb] at heq
    have hvv : va = vb := by injection heq
    subst hvv
    have hma := dictGet_mem _ a va hva
    have hmb := dictGet_mem _ b va hvb
    have hsnd : ((idIndexPairs 0 (recs.map NodeRec.id)).map Prod.snd).Nodup := by
      rw [idIndexPairs_snd]
      exact List.nodup_range' 0 (recs.map NodeRec.id).length
    have := List.inj_on_of_nodup_map hsnd hma hmb rfl
    exact hab (congrArg Prod.fst this)

/-- C5 witness: the amended statement applied to the two-record block with
ids 5 and 3. -/
theorem c5_renumbering_bijectivity_witness :
    (NodalPointCoordinateBlock.init
        [⟨5, (pyZero, pyZero, pyZero)⟩, ⟨3, (pyZero, pyZero, pyZero)⟩]).numnod = 2 ∧
    (NodalPointCoordinateBlock.init
        [⟨5, (pyZero, pyZero, pyZero)⟩, ⟨3, (pyZero, pyZero, pyZero)⟩]).renumbered.map
        Prod.snd = List.range 2 ∧
    dictGet (NodalPointCoordinateBlock.init
        [⟨5, (pyZero, pyZero, pyZero)⟩, ⟨3, (pyZero, pyZero, pyZero)⟩]).renumbered 5 ≠
      dictGet (NodalPointCoordinateBlock.init
        [⟨5, (pyZero, pyZero, pyZero)⟩, ⟨3, (pyZero, pyZero, pyZero)⟩]).renumbered 3 :=
  have h := c5_renumbering_bijectivity
    [⟨5, (pyZero, pyZero, pyZero)⟩, ⟨3, (pyZero, pyZero, pyZero)⟩] (by decide)
  ⟨h.1, h.2.2.1, h.2.2.2 5 3 (by decide) (by decide) (by decide)⟩

/-! ## Decode loop lemmas -/

theorem decodeLoop_counter (nc : ℕ) :
    ∀ (ls : List DataLine) (d : PyDict (List PyFloat)) (ni wf cnt : ℕ) (out : DecodeOut),
      decodeLoop nc d ni wf cnt ls = Except.ok out →
      out.resultsCounter = cnt + ls.length := by
  intro ls
  induction ls with
  | nil =>
    intro d ni wf cnt out h
    simp only [decodeLoop] at h
    injection h with h
    rw [← h]
    simp
  | cons l ls ih =>
    intro d ni wf cnt out h
    simp only [decodeLoop] at h
    cases hrec : readRecord nc l with
    | error e =>
      rw [hrec] at h
      exact absurd h (by simp)
    | ok t =>
      obtain ⟨data, dni, dwf⟩ := t
      rw [hrec] at h
      have := ih _ _ _ _ _ h
      simp only [List.length_cons]
      omega

theorem decodeLoop_keys (nc : ℕ) :
    ∀ (ls : List DataLine) (d : PyDict (List PyFloat)) (ni wf cnt : ℕ) (out : DecodeOut),
      decodeLoop nc d ni wf cnt ls = Except.ok out →
      (∀ l ∈ ls, l.node ∈ dictKeys d) →
      dictKeys out.results = dictKeys d := by
  intro ls
  induction ls with
  | nil =>
    intro d ni wf cnt out h _
    simp only [decodeLoop] at h
    injection h with h
    rw [← h]
  | cons l ls ih =>
    intro d ni wf cnt out h hmem
    simp only [decodeLoop] at h
    cases hrec : readRecord nc l with
    | error e =>
      rw [hrec] at h
      exact absurd h (by simp)
    | ok t =>
      obtain ⟨data, dni, dwf⟩ := t
      rw [hrec] at h
      have hkeys : dictKeys (dictSet d l.node data) = dictKeys d :=
        dictKeys_dictSet_mem d l.node data (hmem l (List.mem_cons_self l ls))
      have hmem2 : ∀ l2 ∈ ls, l2.node ∈ dictKeys (dictSet d l.node data) := by
        intro l2 hl2
        rw [hkeys]
        exact hmem l2 (List.mem_cons_of_mem l hl2)
      rw [ih _ _ _ _ _ h hmem2, hkeys]

theorem decodeLoop_get_not_listed (nc : ℕ) :
    ∀ (ls : List DataLine) (d : PyDict (List PyFloat)) (ni wf cnt : ℕ) (out : DecodeOut)
      (n : ℕ),
      decodeLoop nc d ni wf cnt ls = Except.ok out →
      n ∉ ls.map DataLine.node →
      dictGet out.results n = dictGet d n := by
  intro ls
  induction ls with
  | nil =>
    intro d ni wf cnt out n h _
    simp only [decodeLoop] at h
    injection h with h
    rw [← h]
  | cons l ls ih =>
    intro d ni wf cnt out n h hnl
    simp only [decodeLoop] at h
    cases hrec : readRecord nc l with
    | error e =>
      rw [hrec] at h
      exact absurd h (by simp)
    | ok t =>
      obtain ⟨data, dni, dwf⟩ := t
      rw [hrec] at h
      simp only [List.map_cons, List.mem_cons] at hnl
      push_neg at hnl
      rw [ih _ _ _ _ _ _ h hnl.2]
      exact dictGet_dictSet_ne d l.node n data hnl.1

theorem decodeLoop_get_last (nc : ℕ) :
    ∀ (ls : List DataLine) (d : PyDict (List PyFloat)) (ni wf cnt : ℕ) (out : DecodeOut)
      (n : ℕ) (r : DataLine),
      decodeLoop nc d ni wf cnt ls = Except.ok out →
      (ls.filter (fun l => l.node == n)).getLast? = some r →
      ∀ (v : List PyFloat) (dni dwf : ℕ), readRecord nc r = Except.ok (v, dni, dwf) →
      dictGet out.results n = some v := by
  intro ls
  induction ls with
  | nil =>
    intro d ni wf cnt out n r h hlast
    simp [List.filter] at hlast
  | cons l ls ih =>
    intro d ni wf cnt out n r h hlast v dni dwf hrecr
    simp only [decodeLoop] at h
    cases hrec : readRecord nc l with
    | error e =>
      rw [hrec] at h
      exact absurd h (by simp)
    | ok t =>
      obtain ⟨data, dni2, dwf2⟩ := t
      rw [hrec] at h
      by_cases hln : l.node = n
      · -- the head record also writes node n
        cases hfl : ls.filter (fun l2 => l2.node == n) with
        | nil =>
          -- the head is the last such record: r = l, and no later record
          -- touches n, so the head assignment survives
          have hr : r = l := by
            rw [List.filter_cons_of_pos (by simp [hln])] at hlast
            rw [hfl] at hlast
            simp at hlast
            exact hlast.symm
          subst hr
          have hnomore : n ∉ ls.map DataLine.node := by
            intro hmem
            rcases List.mem_map.mp hmem with ⟨l2, hl2, hl2n⟩
            have : l2 ∈ ls.filter (fun l2 => l2.node == n) :=
              List.mem_filter.mpr ⟨hl2, by simp [hl2n]⟩
            rw [hfl] at this
            simp at this
          have hdata : data = v := by
            rw [hrecr] at hrec
            injection hrec with hrec
            exact (congrArg (fun p => p.1) hrec).symm
          rw [decodeLoop_get_not_listed nc ls _ _ _ _ _ _ h hnomore]
          rw [hln] at *
          rw [hdata] at *
          exact dictGet_dictSet_self d n v
        | cons r2 rs2 =>
          -- a later record for n exists; the last one wins via the IH
          have hlast2 : (ls.filter (fun l2 => l2.node == n)).getLast? = some r := by
            rw [List.filter_cons_of_pos (by simp [hln])] at hlast
            rw [hfl] at hlast ⊢
            rwa [List.getLast?_cons_cons] at hlast
          exact ih _ _ _ _ _ _ _ h hlast2 v dni dwf hrecr
      · -- the head record writes a different node
        have hlast2 : (ls.filter (fun l2 => l2.node == n)).getLast? = some r := by
          rwa [List.filter_cons_of_neg (by simp [hln])] at hlast
        exact ih _ _ _ _ _ _ _ h hlast2 v dni dwf hrecr

/-- C7: default-fill completeness — for a result block decoded against a
geometry node list (distinct ids, as get_node_numbers yields) whose data
lines only cover some of the nodes, the decoded results dict has exactly
one entry per geometry node, and every node not listed on a data line
holds the all-zero vector of length equal to the effective component
count. -/
theorem c7_default_fill (nodes : List ℕ) (nc : ℕ) (ls : List DataLine) (out : DecodeOut)
    (hnd : nodes.Nodup)
    (hsub : ∀ l ∈ ls, l.node ∈ nodes)
    (hok : read_nodal_results nodes nc ls = Except.ok out) :
    out.results.length = nodes.length ∧
    (∀ n ∈ nodes, n ∉ ls.map DataLine.node →
      dictGet out.results n = some (List.replicate nc pyZero)) := by
  have hseed : seedResults nodes nc = nodes.map (fun n => (n, List.replicate nc pyZero)) := by
    unfold seedResults
    rw [foldl_dictSet_append (fun _ => List.replicate nc pyZero) nodes [] hnd
      (by intro n _; simp [dictKeys])]
    simp
  have hkseed : dictKeys (seedResults nodes nc) = nodes := by
    rw [hseed]
    simp only [dictKeys, List.map_map]
    exact List.map_id nodes
  constructor
  · have hkeys := decodeLoop_keys nc ls _ 0 0 0 out hok
      (by intro l hl; rw [hkseed]; exact hsub l hl)
    calc out.results.length = (dictKeys out.results).length := by simp [dictKeys]
      _ = nodes.length := by rw [hkeys, hkseed]
  · intro n hn hnl
    rw [decodeLoop_get_not_listed nc ls _ 0 0 0 out n hok hnl, hseed]
    exact dictGet_map_pair _ nodes n hn

/-- C7 witness: a two-node geometry whose result block lists only node 1;
the decoded dict has two entries and node 2 keeps the zero vector. -/
theorem c7_default_fill_witness :
    read_nodal_results [1, 2] 1 [⟨1, " 3.00000E+00".toList, []⟩] =
      Except.ok ⟨[(1, [PyFloat.finite ⟨300000, -5⟩]), (2, [pyZero])], 0, 0, 1⟩ ∧
    ([(1, [PyFloat.finite ⟨300000, -5⟩]), (2, [pyZero])] : PyDict (List PyFloat)).length = 2 ∧
    dictGet ([(1, [PyFloat.finite ⟨300000, -5⟩]), (2, [pyZero])] : PyDict (List PyFloat)) 2 =
      some (List.replicate 1 pyZero) :=
  have h := c7_default_fill [1, 2] 1 [⟨1, " 3.00000E+00".toList, []⟩]
    ⟨[(1, [PyFloat.finite ⟨300000, -5⟩]), (2, [pyZero])], 0, 0, 1⟩
    (by decide) (by decide) (by decide)
  ⟨by decide, h.1, h.2 2 (by decide) (by decide)⟩

/-- C10: duplicate data lines overwrite — when a node id appears on
several data lines of one result block, the decoded vector for the id is
the one decoded from the last such line (a later line fully replaces the
earlier vector, continuation rows included), while the independent
results counter still counts every data line of the block. -/
theorem c10_last_line_wins (nodes : List ℕ) (nc : ℕ) (ls : List DataLine) (out : DecodeOut)
    (n : ℕ) (r : DataLine) (v : List PyFloat) (dni dwf : ℕ)
    (hok : read_nodal_results nodes nc ls = Except.ok out)
    (hlast : (ls.filter (fun l => l.node == n)).getLast? = some r)
    (hrec : readRecord nc r = Except.ok (v, dni, dwf)) :
    dictGet out.results n = some v ∧ out.resultsCounter = ls.length := by
  refine ⟨decodeLoop_get_last nc ls _ 0 0 0 out n r hok hlast v dni dwf hrec, ?_⟩
  have := decodeLoop_counter nc ls _ 0 0 0 out hok
  simpa using this

/-- C10 witness: node 1 listed twice; the decoded vector is the second
value 4.0 and the counter is 2. -/
theorem c10_last_line_wins_witness :
    read_nodal_results [1] 1
        [⟨1, " 3.00000E+00".toList, []⟩, ⟨1, " 4.00000E+00".toList, []⟩] =
      Except.ok ⟨[(1, [PyFloat.finite ⟨400000, -5⟩])], 0, 0, 2⟩ ∧
    dictGet ([(1, [PyFloat.finite ⟨400000, -5⟩])] : PyDict (List PyFloat)) 1 =
      some [PyFloat.finite ⟨400000, -5⟩] ∧
    (⟨[(1, [PyFloat.finite ⟨400000, -5⟩])], 0, 0, 2⟩ : DecodeOut).resultsCounter = 2 :=
  have h := c10_last_line_wins [1] 1
    [⟨1, " 3.00000E+00".toList, []⟩, ⟨1, " 4.00000E+00".toList, []⟩]
    ⟨[(1, [PyFloat.finite ⟨400000, -5⟩])], 0, 0, 2⟩ 1 ⟨1, " 4.00000E+00".toList, []⟩
    [PyFloat.finite ⟨400000, -5⟩] 0 0 (by decide) (by decide) (by decide)
  ⟨by decide, h.1, h.2⟩

/-! ## Convert loop lemmas -/

/-- The value a NaN/Inf scrub leaves behind. -/
def zeroNonfinite (v : PyFloat) : PyFloat :=
  if isInfB v || isNaNB v then pyZero else v

theorem clean_value_spec (v : PyFloat) :
    clean_value v =
      (zeroNonfinite v, (if isInfB v then 1 else 0), (if isNaNB v then 1 else 0)) := by
  cases v <;> rfl

theorem clean_values_spec (vs : List PyFloat) :
    clean_values vs = (vs.map zeroNonfinite, vs.countP isInfB, vs.countP isNaNB) := by
  induction vs with
  | nil => rfl
  | cons v vs ih =>
    simp [clean_values, ih, clean_value_spec, List.countP_cons, Nat.add_comm]

theorem convertLoop_get_not_mem :
    ∀ (ns : List ℕ) (results : PyDict (List PyFloat)) (t : List (List PyFloat))
      (res : PyDict (List PyFloat)) (ni nn m : ℕ),
      convertLoop results ns = Except.ok (t, res, ni, nn) → m ∉ ns →
      dictGet res m = dictGet results m := by
  intro ns
  induction ns with
  | nil =>
    intro results t res ni nn m h _
    simp only [convertLoop, Except.ok.injEq, Prod.mk.injEq] at h
    rw [← h.2.1]
  | cons a ns ih =>
    intro results t res ni nn m h hm
    simp only [convertLoop] at h
    cases hget : dictGet results a with
    | none =>
      simp only [hget] at h
      exact absurd h (by simp)
    | some vs =>
      simp only [hget] at h
      cases hcl : convertLoop (dictSet results a (clean_values vs).1) ns with
      | error e =>
        simp only [hcl] at h
        exact absurd h (by simp)
      | ok t4 =>
        obtain ⟨tuples, res2, ni2, nn2⟩ := t4
        simp only [hcl] at h
        simp only [Except.ok.injEq, Prod.mk.injEq] at h
        simp only [List.mem_cons] at hm
        push_neg at hm
        rw [← h.2.1]
        rw [ih _ tuples res2 ni2 nn2 m hcl hm.2]
        exact dictGet_dictSet_ne results a m _ hm.1

theorem convertLoop_ok :
    ∀ (ns : List ℕ) (results : PyDict (List PyFloat)) (t : List (List PyFloat))
      (res : PyDict (List PyFloat)) (ni nn : ℕ),
      ns.Nodup →
      convertLoop results ns = Except.ok (t, res, ni, nn) →
      (∀ (i n : ℕ), ns.get? i = some n →
        ∃ vs, dictGet results n = some vs ∧
          t.get? i = some (vs.map zeroNonfinite) ∧
          dictGet res n = some (vs.map zeroNonfinite)) ∧
      ni = (ns.map (fun n => ((dictGet results n).getD []).countP isInfB)).sum ∧
      nn = (ns.map (fun n => ((dictGet results n).getD []).countP isNaNB)).sum := by
  intro ns
  induction ns with
  | nil =>
    intro results t res ni nn _ h
    simp only [convertLoop, Except.ok.injEq, Prod.mk.injEq] at h
    refine ⟨?_, by simp [← h.2.2.1], by simp [← h.2.2.2]⟩
    intro i n hi
    simp at hi
  | cons a ns ih =>
    intro results t res ni nn hnd h
    simp only [convertLoop] at h
    cases hget : dictGet results a with
    | none =>
      simp only [hget] at h
      exact absurd h (by simp)
    | some vs =>
      simp only [hget] at h
      cases hcl : convertLoop (dictSet results a (clean_values vs).1) ns with
      | error e =>
        simp only [hcl] at h
        exact absurd h (by simp)
      | ok t4 =>
        obtain ⟨tuples, res2, ni2, nn2⟩ := t4
        simp only [hcl] at h
        simp only [Except.ok.injEq, Prod.mk.injEq] at h
        obtain ⟨ht, hres, hni, hnn⟩ := h
        have hna : a ∉ ns := (List.nodup_cons.mp hnd).1
        have hnd2 : ns.Nodup := (List.nodup_cons.mp hnd).2
        have ihh := ih (dictSet results a (clean_values vs).1) tuples res2 ni2 nn2 hnd2 hcl
        have hgets : ∀ m ∈ ns,
            dictGet (dictSet results a (clean_values vs).1) m = dictGet results m := by
          intro m hm
          exact dictGet_dictSet_ne results a m _ (fun hh => hna (hh ▸ hm))
        refine ⟨?_, ?_, ?_⟩
        · intro i n hi
          cases i with
          | zero =>
            simp only [List.get?] at hi
            injection hi with hi
            subst hi
            refine ⟨vs, hget, ?_, ?_⟩
            · rw [← ht]
              simp [clean_values_spec]
            · rw [← hres,
                convertLoop_get_not_mem ns _ tuples res2 ni2 nn2 a hcl hna,
                dictGet_dictSet_self]
              simp [clean_values_spec]
          | succ i =>
            simp only [List.get?] at hi
            obtain ⟨vs2, hv1, hv2, hv3⟩ := ihh.1 i n hi
            have hn_mem : n ∈ ns := List.get?_mem hi
            refine ⟨vs2, by rw [← hgets n hn_mem]; exact hv1, ?_,
              by rw [← hres]; exact hv3⟩
            rw [← ht]
            simpa using hv2
        · rw [← hni, ihh.2.1]
          simp only [List.map_cons, List.sum_cons]
          have hmapeq : ns.map (fun n =>
              ((dictGet (dictSet results a (clean_values vs).1) n).getD []).countP isInfB) =
              ns.map (fun n => ((dictGet results n).getD []).countP isInfB) := by
            apply List.map_congr_left
            intro m hm
            rw [hgets m hm]
          rw [hmapeq]
          simp [clean_values_spec, hget]
        · rw [← hnn, ihh.2.2]
          simp only [List.map_cons, List.sum_cons]
          have hmapeq : ns.map (fun n =>
              ((dictGet (dictSet results a (clean_values vs).1) n).getD []).countP isNaNB) =
              ns.map (fun n => ((dictGet results n).getD []).countP isNaNB) := by
            apply List.map_congr_left
            intro m hm
            rw [hgets m hm]
          rw [hmapeq]
          simp [clean_values_spec, hget]

/-- C8: NaN/Infinity handling — a result-block token that float() parses
as NaN or an infinity never aborts decoding (the value is stored, and the
decoder counter is bumped whenever the token carries the NaN or Inf
spelling FRD uses); and in the conversion to the VTK point-data array
every nonfinite stored value is replaced by 0.0 both in the emitted tuple
and (through list aliasing) in the stored results, with the per-block Inf
and NaN counters equal to the total number of such values in the block. -/
theorem c8_naninf_converted_and_counted :
    (∀ (m : List Char) (v : PyFloat), pyFloatOfChars m = some v →
      parse_field m = Except.ok (v,
        (if containsTok "NaN".toList m || containsTok "Inf".toList m then 1 else 0), 0)) ∧
    (∀ (results : PyDict (List PyFloat)) (renum : PyDict ℕ) (t : List (List PyFloat))
        (res : PyDict (List PyFloat)) (ni nn : ℕ),
      (get_node_numbers renum).Nodup →
      convert_frd_data_to_vtk results renum = Except.ok (t, res, ni, nn) →
      (∀ (i n j : ℕ) (vs : List PyFloat) (w : PyFloat),
        (get_node_numbers renum).get? i = some n →
        dictGet results n = some vs → vs.get? j = some w →
        (isInfB w || isNaNB w) = true →
        ∃ cv, t.get? i = some cv ∧ cv.get? j = some pyZero ∧ dictGet res n = some cv) ∧
      ni = ((get_node_numbers renum).map
          (fun n => ((dictGet results n).getD []).countP isInfB)).sum ∧
      nn = ((get_node_numbers renum).map
          (fun n => ((dictGet results n).getD []).countP isNaNB)).sum) := by
  constructor
  · intro m v hv
    simp [parse_field, hv]
  · intro results renum t res ni nn hnd hok
    have h := convertLoop_ok (get_node_numbers renum) results t res ni nn hnd hok
    refine ⟨?_, h.2.1, h.2.2⟩
    intro i n j vs w hi hvs hj hw
    obtain ⟨vs2, hv1, hv2, hv3⟩ := h.1 i n hi
    rw [hvs] at hv1
    have hvv : vs = vs2 := by injection hv1
    subst hvv
    refine ⟨vs.map zeroNonfinite, hv2, ?_, hv3⟩
    rw [List.get?_map, hj]
    simp [zeroNonfinite, hw]

/-- C8 witness: the NaN token is parsed and counted without aborting, and
a stored NaN is emitted as 0.0 with the NaN counter at 1. -/
theorem c8_naninf_converted_and_counted_witness :
    parse_field "         NaN".toList = Except.ok (PyFloat.nan, 1, 0) ∧
    (∃ cv, ([[pyZero]] : List (List PyFloat)).get? 0 = some cv ∧
      cv.get? 0 = some pyZero ∧
      dictGet ([(1, [pyZero])] : PyDict (List PyFloat)) 1 = some cv) ∧
    (1 : ℕ) = (([1] : List ℕ).map (fun n =>
      ((dictGet ([(1, [PyFloat.nan])] : PyDict (List PyFloat)) n).getD []).countP
        isNaNB)).sum := by
  refine ⟨?_, ?_, ?_⟩
  · have h := c8_naninf_converted_and_counted.1 "         NaN".toList PyFloat.nan (by decide)
    rw [show (if containsTok "NaN".toList "         NaN".toList ||
        containsTok "Inf".toList "         NaN".toList then (1 : ℕ) else 0) = 1
      by decide] at h
    exact h
  · exact (c8_naninf_converted_and_counted.2 [(1, [PyFloat.nan])] [(1, 0)]
      [[pyZero]] [(1, [pyZero])] 0 1 (by decide) (by decide)).1 0 1 0 [PyFloat.nan]
      PyFloat.nan (by decide) (by decide) (by decide) (by decide)
  · exact (c8_naninf_converted_and_counted.2 [(1, [PyFloat.nan])] [(1, 0)]
      [[pyZero]] [(1, [pyZero])] 0 1 (by decide) (by decide)).2.2

/-- C9: Mises derivation — for a 6-component block over a geometry with
distinct node ids, the derived block holds exactly one scalar per node
whose value equals the claimed form
sqrt(0.5 * ((xx-yy)^2 + (yy-zz)^2 + (zz-xx)^2 + 6 (yz^2 + xz^2 + xy^2)))
(equal to the coded 1/sqrt(2) * sqrt(...) expression), is named
name + _Mises with that single component, and copies increment_value and
step from the source block; calculate_mises_strain applies the identical
stress-coefficient formula. -/
theorem c9_mises_formula_and_metadata (nodes : List ℕ)
    (vals : ℕ → ℝ × ℝ × ℝ × ℝ × ℝ × ℝ) (b : TensorBlock)
    (hnd : nodes.Nodup)
    (hres : b.results = nodes.map (fun n => (n, sixList (vals n)))) :
    calculate_mises_stress nodes b =
      Except.ok ⟨b.name ++ "_Mises", [b.name ++ "_Mises"], 1, b.inc, b.step,
        nodes.map (fun n => (n, [misesOfSix (vals n)]))⟩ ∧
    calculate_mises_strain nodes b = calculate_mises_stress nodes b ∧
    (∀ xx yy zz xy yz xz : ℝ, mises_formula xx yy zz xy yz xz =
      Real.sqrt (0.5 * ((xx - yy) ^ 2 + (yy - zz) ^ 2 + (zz - xx) ^ 2 +
        6 * (yz ^ 2 + xz ^ 2 + xy ^ 2)))) := by
  have hloop := misesLoop_spec vals nodes b.results [] hnd
    (by intro n _; simp [dictKeys])
    (by intro n hn; rw [hres]; exact dictGet_map_pair _ nodes n hn)
  refine ⟨?_, ?_, ?_⟩
  · simp only [calculate_mises_stress, hloop]
    simp
  · simp only [calculate_mises_strain, calculate_mises_stress]
  · intro xx yy zz xy yz xz
    have hA : (0 : ℝ) ≤ (xx - yy) ^ 2 + (yy - zz) ^ 2 + (zz - xx) ^ 2 +
        6 * yz ^ 2 + 6 * xz ^ 2 + 6 * xy ^ 2 := by positivity
    have h1 : (0.5 : ℝ) * ((xx - yy) ^ 2 + (yy - zz) ^ 2 + (zz - xx) ^ 2 +
        6 * (yz ^ 2 + xz ^ 2 + xy ^ 2)) =
        ((xx - yy) ^ 2 + (yy - zz) ^ 2 + (zz - xx) ^ 2 +
        6 * yz ^ 2 + 6 * xz ^ 2 + 6 * xy ^ 2) / 2 := by ring
    rw [mises_formula, h1, Real.sqrt_div hA 2]
    ring

/-- C9 witness: the statement applied to the one-node geometry with the
tensor (1, 2, 3, 4, 5, 6). -/
theorem c9_mises_formula_and_metadata_witness :
    calculate_mises_stress [1]
      ⟨"S", ["XX", "YY", "ZZ", "XY", "YZ", "ZX"], 6, pyZero, 1,
        [(1, sixList (1, 2, 3, 4, 5, 6))]⟩ =
      Except.ok ⟨"S" ++ "_Mises", ["S" ++ "_Mises"], 1, pyZero, 1,
        [(1, [misesOfSix (1, 2, 3, 4, 5, 6)])]⟩ ∧
    mises_formula 1 2 3 4 5 6 =
      Real.sqrt (0.5 * (((1 : ℝ) - 2) ^ 2 + ((2 : ℝ) - 3) ^ 2 + ((3 : ℝ) - 1) ^ 2 +
        6 * ((5 : ℝ) ^ 2 + (6 : ℝ) ^ 2 + (4 : ℝ) ^ 2))) :=
  have h := c9_mises_formula_and_metadata [1] (fun _ => (1, 2, 3, 4, 5, 6))
    ⟨"S", ["XX", "YY", "ZZ", "XY", "YZ", "ZX"], 6, pyZero, 1,
      [(1, sixList (1, 2, 3, 4, 5, 6))]⟩ (by decide) rfl
  ⟨h.1, h.2.2 1 2 3 4 5 6⟩

/-! ## C1: a concrete conversion with a non-ascending node block -/

/-- A node block listing node 5 before node 3 (non-ascending ids). -/
def c1recs : List NodeRec :=
  [⟨5, (pyZero, pyZero, pyZero)⟩, ⟨3, (PyFloat.finite ⟨1, 0⟩, pyZero, pyZero)⟩]

/-- Its decoded NodalPointCoordinateBlock. -/
def c1block : NodalPointCoordinateBlock := NodalPointCoordinateBlock.init c1recs

/-- A one-component result block: node 3 has value 1.0, node 5 has 2.0. -/
def c1lines : List DataLine :=
  [⟨3, " 1.00000E+00".toList, []⟩, ⟨5, " 2.00000E+00".toList, []⟩]

/-- The decoded results dict for the block. -/
def c1results : PyDict (List PyFloat) :=
  match read_nodal_results (get_node_numbers c1block.renumbered) 1 c1lines with
  | Except.ok out => out.results
  | Except.error _ => []

/-- The point-data tuples convert_frd_data_to_vtk emits for the block. -/
def c1tuples : List (List PyFloat) :=
  match convert_frd_data_to_vtk c1results c1block.renumbered with
  | Except.ok out => out.1
  | Except.error _ => []

theorem c1_toRat_one : Dec.toRat ⟨100000, -5⟩ = 1 := by
  have h5 : ((10 : ℚ) ^ (5 : ℤ)) = 100000 := by
    rw [show (5 : ℤ) = ((5 : ℕ) : ℤ) from rfl, zpow_natCast]
    norm_num
  rw [Dec.toRat, show (-5 : ℤ) = -(5 : ℤ) from rfl, zpow_neg, h5]
  norm_num

theorem c1_toRat_two : Dec.toRat ⟨200000, -5⟩ = 2 := by
  have h5 : ((10 : ℚ) ^ (5 : ℤ)) = 100000 := by
    rw [show (5 : ℤ) = ((5 : ℕ) : ℤ) from rfl, zpow_natCast]
    norm_num
  rw [Dec.toRat, show (-5 : ℤ) = -(5 : ℤ) from rfl, zpow_neg, h5]
  norm_num

/-- C1: the claim fails on the code. For the node block listing ids 5
then 3, the renumber map sends node 3 to dense index 1 and point 1 holds
node 3's coordinates, but convert_frd_data_to_vtk fills tuples in
sorted-id order (get_node_numbers), so tuple 1 holds node 5's decoded
value 2.0 while node 3's decoded value is 1.0 — the tuple at dense index
RenumberMap(3) = 1 does not equal the decoded value vector of node 3, and
point 1 and tuple 1 describe different nodes. -/
theorem c1_point_data_misaligned :
    dictGet c1block.renumbered 3 = some 1 ∧
    c1block.points.get? 1 = some (PyFloat.finite ⟨1, 0⟩, pyZero, pyZero) ∧
    dictGet c1results 3 = some [PyFloat.finite ⟨100000, -5⟩] ∧
    c1tuples.get? 1 = some [PyFloat.finite ⟨200000, -5⟩] ∧
    Dec.toRat ⟨100000, -5⟩ = 1 ∧ Dec.toRat ⟨200000, -5⟩ = 2 ∧
    c1tuples.get? 1 ≠ some [PyFloat.finite ⟨100000, -5⟩] :=
  ⟨by decide, by decide, by decide, by decide, c1_toRat_one, c1_toRat_two, by decide⟩
